import Mathlib

/-!
Verification of the live location-tracking fragment of the
Food-Redistribution-platform repository.

The embedding models:
* the `live_locations` table (schema: `supabase/migrations`, unique key
  `(user_id, match_id)`) as a list of rows, with upsert / delete / select
  operations matching the Supabase calls issued by the client;
* the publisher hook `useLocationTracking` (src/src/hooks/useLocationTracking.ts):
  its React state (`isTracking`, `currentLocation`, `trackedUsers`, `watchId`),
  the geolocation watch registry of the browser, and the toast notifications;
* the marker reconciliation effect of `LiveTrackingMap`
  (src/src/components/LiveTrackingMap.tsx): the `markersRef` string-keyed
  marker map, marker object identity (`objId`), and the fit-bounds viewport step.

JavaScript numbers are modelled as rationals (`Rat`); `null`/`undefined`
optional fields as `Option`; timestamps as `Nat`.
-/

set_option autoImplicit false

namespace FoodShare

/-- The `LocationData` interface of useLocationTracking.ts: latitude/longitude
required, accuracy/heading/speed optional (`?: number`). -/
structure LocationData where
  latitude : Rat
  longitude : Rat
  accuracy : Option Rat
  heading : Option Rat
  speed : Option Rat
deriving DecidableEq, Repr

/-- A raw `GeolocationCoordinates` event from the device. Per the platform
interface, `latitude`, `longitude` and `accuracy` are always present;
`heading` and `speed` are `number | null`. -/
structure GeoCoords where
  latitude : Rat
  longitude : Rat
  accuracy : Rat
  heading : Option Rat
  speed : Option Rat
deriving DecidableEq, Repr

/-- The success callback of `watchPosition` (useLocationTracking.ts lines 72-79):
builds a `LocationData` from the raw coordinates.  `heading` and `speed` use
`?? undefined`, collapsing `null` to an absent field; nothing is defaulted. -/
def toLocationData (c : GeoCoords) : LocationData :=
  { latitude := c.latitude
    longitude := c.longitude
    accuracy := some c.accuracy
    heading := c.heading
    speed := c.speed }

/-- A row of the `live_locations` table (migration part_001): one position
sample, uniquely keyed by `(user_id, match_id)`. -/
structure LiveLocation where
  user_id : String
  match_id : String
  latitude : Rat
  longitude : Rat
  accuracy : Option Rat
  heading : Option Rat
  speed : Option Rat
  updated_at : Nat
deriving DecidableEq, Repr

/-- Does row `x` carry the conflict key `(u, m)`? -/
def sameKey (x : LiveLocation) (u m : String) : Bool :=
  x.user_id == u && x.match_id == m

/-- Supabase `.upsert(row, { onConflict: "user_id,match_id" })` against the
`UNIQUE(user_id, match_id)` constraint: if a row with the same key exists it
is replaced, otherwise the row is appended. -/
def upsertRow (s : List LiveLocation) (r : LiveLocation) : List LiveLocation :=
  if s.any (fun x => sameKey x r.user_id r.match_id) then
    s.map (fun x => if sameKey x r.user_id r.match_id then r else x)
  else
    s ++ [r]

/-- Supabase `.delete().eq("user_id", u).eq("match_id", m)`: removes every row
matching both equalities (at most one, by the unique constraint). -/
def deleteRow (s : List LiveLocation) (u m : String) : List LiveLocation :=
  s.filter (fun x => !(sameKey x u m))

/-- Supabase `.select("*").eq("match_id", m)`: all rows of one session. -/
def selectByMatch (s : List LiveLocation) (m : String) : List LiveLocation :=
  s.filter (fun x => x.match_id == m)

/-- Number of rows of the store carrying the key `(u, m)`. -/
def keyCount : List LiveLocation → String → String → Nat
  | [], _, _ => 0
  | r :: rest, u, m => (if sameKey r u m then 1 else 0) + keyCount rest u m

/-- The uniqueness invariant of the `live_locations` table: at most one row
per `(user_id, match_id)` key. -/
def storeInv (s : List LiveLocation) : Prop :=
  ∀ u m, keyCount s u m ≤ 1

/-- The row built by `updateLocation` (useLocationTracking.ts lines 42-50)
from the incoming `LocationData`. -/
def locationRow (u m : String) (loc : LocationData) (now : Nat) : LiveLocation :=
  { user_id := u
    match_id := m
    latitude := loc.latitude
    longitude := loc.longitude
    accuracy := loc.accuracy
    heading := loc.heading
    speed := loc.speed
    updated_at := now }

/-- Model of `updateLocation` (useLocationTracking.ts lines 34-58): returns without a
write when there is no session id or no authenticated user, otherwise upserts
the row keyed on `(user.id, matchId)`. -/
def updateLocation (matchId userId : Option String) (loc : LocationData)
    (now : Nat) (s : List LiveLocation) : List LiveLocation :=
  match matchId, userId with
  | some m, some u => upsertRow s (locationRow u m loc now)
  | _, _ => s

/-- A sequence of location events for a fixed session/user context, each
feeding one `updateLocation` call (event data paired with its timestamp). -/
def runLocationEvents (matchId userId : Option String)
    (events : List (LocationData × Nat)) (s : List LiveLocation) :
    List LiveLocation :=
  events.foldl (fun acc e => updateLocation matchId userId e.1 e.2 acc) s

/-! ### Store lemmas -/

theorem keyCount_append (a b : List LiveLocation) (u m : String) :
    keyCount (a ++ b) u m = keyCount a u m + keyCount b u m := by
  induction a with
  | nil => simp [keyCount]
  | cons x rest ih => simp [keyCount, ih]; omega

theorem keyCount_replace (s : List LiveLocation) (r : LiveLocation) (u m : String) :
    keyCount (s.map (fun x => if sameKey x r.user_id r.match_id then r else x)) u m
      = keyCount s u m := by
  induction s with
  | nil => simp [keyCount]
  | cons x rest ih =>
    simp only [List.map_cons, keyCount, ih]
    by_cases hx : sameKey x r.user_id r.match_id = true
    · have h1 : x.user_id = r.user_id ∧ x.match_id = r.match_id := by
        simpa [sameKey] using hx
      simp only [hx, if_pos]
      have : sameKey r u m = sameKey x u m := by
        simp [sameKey, h1.1, h1.2]
      rw [this]
    · simp [hx]

theorem keyCount_eq_zero_of_any_eq_false (s : List LiveLocation) (u m : String)
    (h : s.any (fun x => sameKey x u m) = false) : keyCount s u m = 0 := by
  induction s with
  | nil => rfl
  | cons x rest ih =>
    simp only [List.any_cons, Bool.or_eq_false_iff] at h
    simp [keyCount, h.1, ih h.2]

theorem upsertRow_inv {s : List LiveLocation} (r : LiveLocation)
    (hs : storeInv s) : storeInv (upsertRow s r) := by
  intro u m
  unfold upsertRow
  by_cases hany : s.any (fun x => sameKey x r.user_id r.match_id) = true
  · simp only [hany, if_pos]
    rw [keyCount_replace]
    exact hs u m
  · have hfalse : s.any (fun x => sameKey x r.user_id r.match_id) = false := by
      simpa using hany
    simp only [hfalse, Bool.false_eq_true, if_neg, not_false_iff]
    rw [keyCount_append]
    by_cases hk : sameKey r u m = true
    · have h1 : r.user_id = u ∧ r.match_id = m := by simpa [sameKey] using hk
      have h0 : keyCount s u m = 0 := by
        apply keyCount_eq_zero_of_any_eq_false
        rw [← h1.1, ← h1.2]
        exact hfalse
      simp [keyCount, h0, hk]
    · have := hs u m
      simp only [Bool.not_eq_true] at hk
      simp [keyCount, hk]
      omega

theorem updateLocation_inv (matchId userId : Option String) (loc : LocationData)
    (now : Nat) {s : List LiveLocation} (hs : storeInv s) :
    storeInv (updateLocation matchId userId loc now s) := by
  unfold updateLocation
  match matchId, userId with
  | some m, some u => exact upsertRow_inv _ hs
  | some m, none => exact hs
  | none, some u => exact hs
  | none, none => exact hs

/-- C1: For every sequence of location events published by a single participant
for a single session, every write by `updateLocation` is an upsert keyed on
`(user_id, match_id)`, so a store satisfying the at-most-one-row-per-key
invariant still satisfies it after the whole sequence: at most one Position
Sample per `(participant, session)` pair at any time. -/
theorem updateLocation_upsert_unique (m u : String)
    (events : List (LocationData × Nat)) (s : List LiveLocation)
    (hs : storeInv s) :
    storeInv (runLocationEvents (some m) (some u) events s) := by
  induction events generalizing s with
  | nil => exact hs
  | cons e rest ih =>
    exact ih _ (updateLocation_inv (some m) (some u) e.1 e.2 hs)

/-! ### Publisher hook and geolocation environment -/

/-- The user-visible toast notifications issued by the hook. -/
inductive Toast where
  | capabilityUnavailable
  | locationError
  | sharingStarted
  | sharingStopped
deriving DecidableEq, Repr

/-- The React state of `useLocationTracking(matchId)`. -/
structure HookState where
  matchId : Option String
  isTracking : Bool
  currentLocation : Option LocationData
  trackedUsers : List LiveLocation
  watchId : Option Nat
  toasts : List Toast
deriving DecidableEq, Repr

/-- The browser geolocation capability: availability of `navigator.geolocation`,
the id the next `watchPosition` call will return, and the currently active
(uncancelled) watch subscriptions. -/
structure GeoState where
  available : Bool
  nextWatchId : Nat
  activeWatches : List Nat
deriving DecidableEq, Repr

/-- Combined state: hook, browser geolocation registry, and the
`live_locations` store. -/
structure System where
  hook : HookState
  geo : GeoState
  store : List LiveLocation
deriving DecidableEq, Repr

/-- Model of `startTracking` (useLocationTracking.ts lines 61-104).  If
`navigator.geolocation` is missing: an error toast and an early return —
no watch, no flag change, no store interaction.  Otherwise `watchPosition`
registers a new watch, whose id overwrites `watchId` unconditionally, the
tracking flag is set and a confirmation toast shown. -/
def startTracking (sys : System) : System :=
  if sys.geo.available = false then
    { sys with
      hook := { sys.hook with
        toasts := sys.hook.toasts ++ [Toast.capabilityUnavailable] } }
  else
    { sys with
      hook := { sys.hook with
        watchId := some sys.geo.nextWatchId
        isTracking := true
        toasts := sys.hook.toasts ++ [Toast.sharingStarted] }
      geo := { sys.geo with
        nextWatchId := sys.geo.nextWatchId + 1
        activeWatches := sys.geo.activeWatches ++ [sys.geo.nextWatchId] } }

/-- One successful position event delivered to the `watchPosition` callback
(useLocationTracking.ts lines 72-81): records the observed location locally
and runs `updateLocation` with the ambient authenticated user. -/
def onPosition (sys : System) (c : GeoCoords) (userId : Option String)
    (now : Nat) : System :=
  { sys with
    hook := { sys.hook with currentLocation := some (toLocationData c) }
    store := updateLocation sys.hook.matchId userId (toLocationData c) now sys.store }

/-- Model of `stopTracking` (useLocationTracking.ts lines 107-131): clears the stored
watch (if any), resets the tracking flag and current location, deletes this
participant's row for the session when a session id and user are present,
and shows a stop toast. -/
def stopTracking (sys : System) (userId : Option String) : System :=
  { hook := { sys.hook with
      watchId := none
      isTracking := false
      currentLocation := none
      toasts := sys.hook.toasts ++ [Toast.sharingStopped] }
    geo :=
      match sys.hook.watchId with
      | some w => { sys.geo with activeWatches := sys.geo.activeWatches.erase w }
      | none => sys.geo
    store :=
      match sys.hook.matchId, userId with
      | some m, some u => deleteRow sys.store u m
      | _, _ => sys.store }

/-- The cleanup closure registered by the effect at
useLocationTracking.ts lines 173-179.  It closes over one render's `watchId`
value; when run it clears that watch if present. -/
def watchEffectCleanup (watchId : Option Nat) (geo : GeoState) : GeoState :=
  match watchId with
  | some w => { geo with activeWatches := geo.activeWatches.erase w }
  | none => geo

/-- One React commit of the effect with dependency array `[watchId]`
(useLocationTracking.ts lines 173-179): when the committed `watchId` has
changed from `prev` to the current value, React runs the previous render's
cleanup — which closes over `prev` — before installing the new one; when the
value is unchanged the effect does not re-run. -/
def commitWatchEffect (prev : Option Nat) (sys : System) : System :=
  if sys.hook.watchId = prev then sys
  else { sys with geo := watchEffectCleanup prev sys.geo }

/-- Unmount: React runs the last installed cleanup of the
useLocationTracking.ts lines 173-179 effect, which closes over the currently
committed watch id. -/
def unmountCleanup (sys : System) : System :=
  { sys with geo := watchEffectCleanup sys.hook.watchId sys.geo }

/-! ### Store deletion lemmas -/

theorem keyCount_deleteRow (s : List LiveLocation) (u m : String) :
    keyCount (deleteRow s u m) u m = 0 := by
  induction s with
  | nil => rfl
  | cons x rest ih =>
    by_cases hx : sameKey x u m = true
    · simpa [deleteRow, hx] using ih
    · simp only [Bool.not_eq_true] at hx
      simp [deleteRow, keyCount, hx] at ih ⊢
      simpa [deleteRow] using ih

/-- C2: After `stopTracking` completes for participant `u` in session `m`
(session id present, user authenticated), the store holds zero rows keyed
`(u, m)` — the row is removed entirely — and the rows of every other key are
exactly preserved. -/
theorem stopTracking_removes_row (sys : System) (u m : String)
    (hm : sys.hook.matchId = some m) :
    keyCount (stopTracking sys (some u)).store u m = 0 ∧
    (∀ r : LiveLocation, sameKey r u m = false →
      (r ∈ (stopTracking sys (some u)).store ↔ r ∈ sys.store)) := by
  have hstore : (stopTracking sys (some u)).store = deleteRow sys.store u m := by
    simp [stopTracking, hm]
  constructor
  · rw [hstore]; exact keyCount_deleteRow sys.store u m
  · intro r hr
    rw [hstore]
    unfold deleteRow
    rw [List.mem_filter]
    simp [hr]

/-- C2 witness. -/
theorem stopTracking_removes_row_witness :
    let row1 : LiveLocation :=
      { user_id := "u1", match_id := "m1", latitude := 10, longitude := 20,
        accuracy := some 5, heading := none, speed := none, updated_at := 1 }
    let row2 : LiveLocation :=
      { user_id := "u2", match_id := "m1", latitude := (101 : Rat)/10, longitude := (201 : Rat)/10,
        accuracy := none, heading := none, speed := none, updated_at := 2 }
    let sys : System :=
      { hook := { matchId := some "m1", isTracking := true, currentLocation := none,
                  trackedUsers := [], watchId := some 0, toasts := [] }
        geo := { available := true, nextWatchId := 1, activeWatches := [0] }
        store := [row1, row2] }
    keyCount (stopTracking sys (some "u1")).store "u1" "m1" = 0 ∧
    (∀ r : LiveLocation, sameKey r "u1" "m1" = false →
      (r ∈ (stopTracking sys (some "u1")).store ↔ r ∈ sys.store)) :=
  stopTracking_removes_row _ "u1" "m1" rfl

/-- C3: If the device location capability is unavailable, `startTracking`
issues a user-visible capability-unavailable toast and performs no
monitoring: the geolocation registry is untouched (no watch registered),
the stored watch id and the tracking flag (still `false`) are unchanged,
and the store is untouched. -/
theorem startTracking_capability_unavailable (sys : System)
    (h : sys.geo.available = false) (ht : sys.hook.isTracking = false) :
    (startTracking sys).store = sys.store ∧
    (startTracking sys).geo = sys.geo ∧
    (startTracking sys).hook.isTracking = false ∧
    (startTracking sys).hook.watchId = sys.hook.watchId ∧
    (startTracking sys).hook.toasts = sys.hook.toasts ++ [Toast.capabilityUnavailable] := by
  simp [startTracking, h, ht]

/-- C3 witness. -/
theorem startTracking_capability_unavailable_witness :
    let sys : System :=
      { hook := { matchId := some "m1", isTracking := false, currentLocation := none,
                  trackedUsers := [], watchId := none, toasts := [] }
        geo := { available := false, nextWatchId := 0, activeWatches := [] }
        store := [] }
    (startTracking sys).store = sys.store ∧
    (startTracking sys).geo = sys.geo ∧
    (startTracking sys).hook.isTracking = false ∧
    (startTracking sys).hook.watchId = sys.hook.watchId ∧
    (startTracking sys).hook.toasts = sys.hook.toasts ++ [Toast.capabilityUnavailable] :=
  startTracking_capability_unavailable _ rfl rfl

/-- C4: The Position Sample row built by the publisher from a raw device
event maps latitude and longitude through unchanged, carries each optional
field exactly as the raw event does (`heading`/`speed` absent when the raw
value is `null`, never defaulted to a number), and is the row `updateLocation`
upserts. -/
theorem locationRow_field_mapping (c : GeoCoords) (u m : String) (now : Nat)
    (s : List LiveLocation) :
    (locationRow u m (toLocationData c) now).latitude = c.latitude ∧
    (locationRow u m (toLocationData c) now).longitude = c.longitude ∧
    (locationRow u m (toLocationData c) now).accuracy = some c.accuracy ∧
    (locationRow u m (toLocationData c) now).heading = c.heading ∧
    (locationRow u m (toLocationData c) now).speed = c.speed ∧
    updateLocation (some m) (some u) (toLocationData c) now s
      = upsertRow s (locationRow u m (toLocationData c) now) := by
  refine ⟨rfl, rfl, rfl, rfl, rfl, rfl⟩

/-- C10 counterexample: the claim asserts that after `startTracking` is
invoked while monitoring is already active, the earlier sampling
subscription remains active.  It does not: the effect at
useLocationTracking.ts lines 173-179 depends on `[watchId]`, so its cleanup
— `clearWatch` of the previous committed id — runs as soon as the
overwritten watch id commits, not only at unmount.  At this concrete
committed state (watch 0 committed and active, capability available), after
`startTracking` overwrites the id and the effect commit runs the previous
render's cleanup, watch 0 is no longer active. -/
theorem prior_watch_cancelled_on_commit :
    let sys : System :=
      { hook := { matchId := some "m1", isTracking := true, currentLocation := none,
                  trackedUsers := [], watchId := some 0, toasts := [] }
        geo := { available := true, nextWatchId := 1, activeWatches := [0] }
        store := [] }
    0 ∉ (commitWatchEffect (some 0) (startTracking sys)).geo.activeWatches := by
  decide

/-- C10 (amended): If `startTracking` is invoked while monitoring is already
active (no intervening `stopTracking`), the stored watch identifier is
overwritten and `startTracking` itself does not cancel the prior watch; but
the `[watchId]`-dependent effect re-runs when the overwritten id commits,
and its previous cleanup — closing over the prior id — cancels the earlier
watch, so the earlier subscription does not remain active.  A subsequent
`stopTracking` (or the unmount cleanup) then cancels the most recently
started subscription. -/
theorem startTracking_overwrite_prior_watch_cleared (sys : System) (w : Nat)
    (userId : Option String)
    (hav : sys.geo.available = true)
    (_hw : sys.hook.watchId = some w)
    (hmem : w ∈ sys.geo.activeWatches)
    (hnd : sys.geo.activeWatches.Nodup)
    (hfresh : ∀ x ∈ sys.geo.activeWatches, x < sys.geo.nextWatchId) :
    (startTracking sys).hook.watchId = some sys.geo.nextWatchId ∧
    w ∈ (startTracking sys).geo.activeWatches ∧
    w ∉ (commitWatchEffect (some w) (startTracking sys)).geo.activeWatches ∧
    sys.geo.nextWatchId
      ∈ (commitWatchEffect (some w) (startTracking sys)).geo.activeWatches ∧
    sys.geo.nextWatchId
      ∉ (stopTracking (commitWatchEffect (some w) (startTracking sys)) userId).geo.activeWatches ∧
    sys.geo.nextWatchId
      ∉ (unmountCleanup (commitWatchEffect (some w) (startTracking sys))).geo.activeWatches := by
  have hwn : w ≠ sys.geo.nextWatchId := Nat.ne_of_lt (hfresh w hmem)
  have h1 : (startTracking sys).hook.watchId = some sys.geo.nextWatchId := by
    simp [startTracking, hav]
  have h2 : (startTracking sys).geo.activeWatches
      = sys.geo.activeWatches ++ [sys.geo.nextWatchId] := by
    simp [startTracking, hav]
  have hmem' : w ∈ (startTracking sys).geo.activeWatches := by
    rw [h2]; exact List.mem_append_left _ hmem
  have hnd2 : ((startTracking sys).geo.activeWatches).Nodup := by
    rw [h2, List.nodup_append]
    refine ⟨hnd, List.nodup_singleton _, ?_⟩
    intro a ha hb
    simp only [List.mem_singleton] at hb
    exact absurd (hb ▸ hfresh a ha) (lt_irrefl _)
  have hneq : (startTracking sys).hook.watchId ≠ some w := by
    rw [h1]
    intro hcon
    exact hwn (Option.some_injective _ hcon).symm
  have hcommit : (commitWatchEffect (some w) (startTracking sys)).geo.activeWatches
      = ((startTracking sys).geo.activeWatches).erase w := by
    simp [commitWatchEffect, hneq, watchEffectCleanup]
  have hcommitHook : (commitWatchEffect (some w) (startTracking sys)).hook
      = (startTracking sys).hook := by
    unfold commitWatchEffect
    split <;> rfl
  have hwid : (commitWatchEffect (some w) (startTracking sys)).hook.watchId
      = some sys.geo.nextWatchId := by
    rw [hcommitHook, h1]
  have hnd3 : ((commitWatchEffect (some w) (startTracking sys)).geo.activeWatches).Nodup := by
    rw [hcommit]
    exact hnd2.erase w
  refine ⟨h1, hmem', ?_, ?_, ?_, ?_⟩
  · rw [hcommit]
    exact hnd2.not_mem_erase
  · rw [hcommit, List.mem_erase_of_ne (Ne.symm hwn), h2]
    exact List.mem_append_right _ (List.mem_singleton_self _)
  · have hstop : (stopTracking (commitWatchEffect (some w) (startTracking sys)) userId).geo.activeWatches
        = ((commitWatchEffect (some w) (startTracking sys)).geo.activeWatches).erase
            sys.geo.nextWatchId := by
      simp [stopTracking, hwid]
    rw [hstop]
    exact hnd3.not_mem_erase
  · have hun : (unmountCleanup (commitWatchEffect (some w) (startTracking sys))).geo.activeWatches
        = ((commitWatchEffect (some w) (startTracking sys)).geo.activeWatches).erase
            sys.geo.nextWatchId := by
      simp [unmountCleanup, watchEffectCleanup, hwid]
    rw [hun]
    exact hnd3.not_mem_erase

/-- C10 witness. -/
theorem startTracking_overwrite_prior_watch_cleared_witness :
    let sys : System :=
      { hook := { matchId := some "m1", isTracking := true, currentLocation := none,
                  trackedUsers := [], watchId := some 3, toasts := [] }
        geo := { available := true, nextWatchId := 4, activeWatches := [3] }
        store := [] }
    (startTracking sys).hook.watchId = some sys.geo.nextWatchId ∧
    3 ∈ (startTracking sys).geo.activeWatches ∧
    3 ∉ (commitWatchEffect (some 3) (startTracking sys)).geo.activeWatches ∧
    sys.geo.nextWatchId
      ∈ (commitWatchEffect (some 3) (startTracking sys)).geo.activeWatches ∧
    sys.geo.nextWatchId
      ∉ (stopTracking (commitWatchEffect (some 3) (startTracking sys)) (some "u1")).geo.activeWatches ∧
    sys.geo.nextWatchId
      ∉ (unmountCleanup (commitWatchEffect (some 3) (startTracking sys))).geo.activeWatches :=
  startTracking_overwrite_prior_watch_cleared _ 3 (some "u1") rfl rfl
    (by decide) (by decide) (by decide)

/-! ### Store synchronization (fetch + realtime subscription) -/

/-- Model of `fetchLocations` (useLocationTracking.ts lines 137-146): on success the
local list is replaced wholesale by the fetched rows; on a read error (or
absent data) nothing happens — in particular no toast is issued on either
the initial-fetch path or the notification path, since both run this same
closure.  `result` is `none` exactly when `error || !data`. -/
def fetchLocations (st : HookState) (result : Option (List LiveLocation)) :
    HookState :=
  match result with
  | some data => { st with trackedUsers := data }
  | none => st

/-- One delivery of a realtime change notification on the
`locations-(matchId)` channel (useLocationTracking.ts lines 151-165): the
callback body is a single `fetchLocations()` call.  The second component
counts the store read requests the callback issues. -/
def onNotification (st : HookState) (m : String) (store : List LiveLocation)
    (fetchError : Bool) : HookState × Nat :=
  (fetchLocations st (if fetchError then none else some (selectByMatch store m)), 1)

/-! ### Presence view: marker reconciliation (LiveTrackingMap.tsx) -/

/-- A mapbox marker object: `objId` models JavaScript object identity,
`lng`/`lat` its current position (set by `setLngLat`). -/
structure Marker where
  objId : Nat
  lng : Rat
  lat : Rat
deriving DecidableEq, Repr

/-- Bounding box accumulated by `LngLatBounds.extend`. -/
structure Bounds where
  west : Rat
  south : Rat
  east : Rat
  north : Rat
deriving DecidableEq, Repr

/-- The view-side state of `LiveTrackingMap`: the `markersRef.current`
string-keyed marker map (as an association list), a fresh-object counter for
newly constructed markers, and the last fitted viewport. -/
@[ext]
structure ViewState where
  markers : List (String × Marker)
  nextObjId : Nat
  viewport : Option Bounds
deriving DecidableEq, Repr

/-- Lookup of `markersRef.current[markerId]`. -/
def findMarker : List (String × Marker) → String → Option Marker
  | [], _ => none
  | p :: rest, k => if p.1 = k then some p.2 else findMarker rest k

/-- Effect of `marker.setLngLat(...)` on the entry keyed `uid`: position updated in
place, object identity preserved. -/
def setPos (ms : List (String × Marker)) (uid : String) (lng lat : Rat) :
    List (String × Marker) :=
  ms.map (fun p =>
    if p.1 = uid then (p.1, { objId := p.2.objId, lng := lng, lat := lat }) else p)

/-- One iteration of the `trackedUsers.forEach` loop
(LiveTrackingMap.tsx lines 122-147): update the existing marker's position in
place, or create a brand-new marker object and register it under the user's
id. -/
def upsertMarker (ms : List (String × Marker)) (nid : Nat) (u : LiveLocation) :
    List (String × Marker) × Nat :=
  if (findMarker ms u.user_id).isSome then
    (setPos ms u.user_id u.longitude u.latitude, nid)
  else
    (ms ++ [(u.user_id, { objId := nid, lng := u.longitude, lat := u.latitude })], nid + 1)

/-- The whole `trackedUsers.forEach` pass. -/
def placeMarkers (ms : List (String × Marker)) (nid : Nat)
    (users : List LiveLocation) : List (String × Marker) × Nat :=
  users.foldl (fun acc u => upsertMarker acc.1 acc.2 u) (ms, nid)

/-- The stale-marker sweep (LiveTrackingMap.tsx lines 150-155): every marker
whose key no longer appears among the tracked users is removed and
discarded. -/
def pruneMarkers (ms : List (String × Marker)) (users : List LiveLocation) :
    List (String × Marker) :=
  ms.filter (fun p => users.any (fun u => u.user_id == p.1))

/-- Effect of `bounds.extend([lng, lat])`. -/
def extendBounds (b : Bounds) (lng lat : Rat) : Bounds :=
  { west := min b.west lng
    south := min b.south lat
    east := max b.east lng
    north := max b.north lat }

/-- The bounds accumulated over all tracked users
(LiveTrackingMap.tsx lines 159-162); `none` when there are no users. -/
def computeBounds : List LiveLocation → Option Bounds
  | [] => none
  | u :: rest =>
    some (rest.foldl (fun b v => extendBounds b v.longitude v.latitude)
      { west := u.longitude, south := u.latitude,
        east := u.longitude, north := u.latitude })

/-- One run of the marker-reconciliation effect
(LiveTrackingMap.tsx lines 113-165): place/update markers, sweep stale ones,
then fit the viewport to the users' bounds — but only when the tracked set is
non-empty (`if (trackedUsers.length > 0)`). -/
def reconcile (vs : ViewState) (users : List LiveLocation) : ViewState :=
  { markers := pruneMarkers (placeMarkers vs.markers vs.nextObjId users).1 users
    nextObjId := (placeMarkers vs.markers vs.nextObjId users).2
    viewport := if users.isEmpty then vs.viewport else computeBounds users }

/-- The keys of the marker map. -/
def keysOf (ms : List (String × Marker)) : List String :=
  ms.map Prod.fst

/-! ### Marker map lemmas -/

theorem placeMarkers_nil (ms : List (String × Marker)) (nid : Nat) :
    placeMarkers ms nid [] = (ms, nid) := rfl

theorem placeMarkers_cons (ms : List (String × Marker)) (nid : Nat)
    (u : LiveLocation) (users : List LiveLocation) :
    placeMarkers ms nid (u :: users)
      = placeMarkers (upsertMarker ms nid u).1 (upsertMarker ms nid u).2 users := rfl

theorem findMarker_append (a b : List (String × Marker)) (k : String) :
    findMarker (a ++ b) k
      = if (findMarker a k).isSome then findMarker a k else findMarker b k := by
  induction a with
  | nil => simp [findMarker]
  | cons p rest ih =>
    by_cases hp : p.1 = k
    · simp [findMarker, hp]
    · simp [findMarker, hp, ih]

theorem findMarker_setPos (ms : List (String × Marker)) (uid : String)
    (lng lat : Rat) (k : String) :
    findMarker (setPos ms uid lng lat) k
      = if k = uid then
          (findMarker ms k).map (fun x => { objId := x.objId, lng := lng, lat := lat })
        else findMarker ms k := by
  induction ms with
  | nil => simp [findMarker, setPos]
  | cons p rest ih =>
    simp only [setPos, List.map_cons] at ih ⊢
    by_cases hp : p.1 = uid
    · by_cases hk : p.1 = k
      · have hku : k = uid := by rw [← hk]; exact hp
        simp [findMarker, hp, hk, hku]
      · have hku : ¬ k = uid := fun h => hk (by rw [hp, ← h])
        have huk : ¬ uid = k := fun h => hku h.symm
        simp [findMarker, hp, hk, hku, huk, ih]
    · by_cases hk : p.1 = k
      · have hku : ¬ k = uid := fun h => hp (by rw [hk, h])
        simp [findMarker, hp, hk, hku]
      · simp [findMarker, hp, hk, ih]

theorem findMarker_upsert_other (ms : List (String × Marker)) (nid : Nat)
    (u : LiveLocation) (k : String) (hk : k ≠ u.user_id) :
    findMarker (upsertMarker ms nid u).1 k = findMarker ms k := by
  unfold upsertMarker
  by_cases h : (findMarker ms u.user_id).isSome
  · simp only [h, if_pos]
    rw [findMarker_setPos]
    simp [hk]
  · simp only [h, if_neg, Bool.false_eq_true, not_false_iff]
    rw [findMarker_append]
    by_cases h2 : (findMarker ms k).isSome
    · simp [h2]
    · simp only [h2, if_neg, Bool.false_eq_true, not_false_iff]
      simp only [Option.not_isSome_iff_eq_none] at h2
      simp [findMarker, h2, Ne.symm hk]

theorem findMarker_upsert_isSome (ms : List (String × Marker)) (nid : Nat)
    (u : LiveLocation) (k : String) :
    (findMarker (upsertMarker ms nid u).1 k).isSome
      ↔ (findMarker ms k).isSome ∨ k = u.user_id := by
  by_cases hk : k = u.user_id
  · cases hfm : findMarker ms u.user_id with
    | some x =>
      simp only [upsertMarker, hfm, Option.isSome_some, if_pos]
      rw [findMarker_setPos, if_pos hk, hk, hfm]
      simp
    | none =>
      simp only [upsertMarker, hfm, Option.isSome_none, Bool.false_eq_true,
        if_neg, not_false_iff]
      rw [findMarker_append]
      have h2 : findMarker ms k = none := by rw [hk, hfm]
      simp [findMarker, h2, hk, hfm]
  · rw [findMarker_upsert_other ms nid u k hk]
    simp [hk]

theorem findMarker_place_isSome (users : List LiveLocation)
    (ms : List (String × Marker)) (nid : Nat) (k : String) :
    (findMarker (placeMarkers ms nid users).1 k).isSome
      ↔ (findMarker ms k).isSome ∨ k ∈ users.map LiveLocation.user_id := by
  induction users generalizing ms nid with
  | nil => simp [placeMarkers_nil]
  | cons u rest ih =>
    rw [placeMarkers_cons, ih, findMarker_upsert_isSome]
    simp [or_assoc]

theorem findMarker_prune (ms : List (String × Marker))
    (users : List LiveLocation) (k : String) :
    findMarker (pruneMarkers ms users) k
      = if users.any (fun u => u.user_id == k) then findMarker ms k else none := by
  induction ms with
  | nil => simp [findMarker, pruneMarkers]
  | cons p rest ih =>
    simp only [pruneMarkers, List.filter_cons] at ih ⊢
    by_cases hk : p.1 = k
    · have hpred : (users.any fun u => u.user_id == p.1)
          = (users.any fun u => u.user_id == k) := by rw [hk]
      rw [hpred]
      by_cases hkeep : (users.any fun u => u.user_id == k) = true
      · simp [hkeep, findMarker, hk]
      · have hfalse : (users.any fun u => u.user_id == k) = false := by
          simpa using hkeep
        simp [hfalse, ih]
    · by_cases hkeep : (users.any fun u => u.user_id == p.1) = true
      · simp [hkeep, findMarker, hk, ih]
      · have hfalse : (users.any fun u => u.user_id == p.1) = false := by
          simpa using hkeep
        simp [hfalse, ih, findMarker, hk]

theorem any_user_id_iff (users : List LiveLocation) (k : String) :
    users.any (fun u => u.user_id == k) = true
      ↔ k ∈ users.map LiveLocation.user_id := by
  rw [List.any_eq_true]
  constructor
  · rintro ⟨u, hu, heq⟩
    rw [beq_iff_eq] at heq
    exact heq ▸ List.mem_map_of_mem _ hu
  · intro hk
    rcases List.mem_map.1 hk with ⟨u, hu, hid⟩
    exact ⟨u, hu, by rw [beq_iff_eq, hid]⟩

/-- C6: After every reconciliation run, the marker-key set coincides exactly
with the participant identifiers of the current tracked set: a marker exists
for `k` if and only if `k` is a tracked participant — no stale marker
survives, no present participant lacks one. -/
theorem reconcile_marker_keys (vs : ViewState) (users : List LiveLocation)
    (k : String) :
    (findMarker (reconcile vs users).markers k).isSome
      ↔ k ∈ users.map LiveLocation.user_id := by
  show (findMarker (pruneMarkers (placeMarkers vs.markers vs.nextObjId users).1 users) k).isSome ↔ _
  rw [findMarker_prune]
  by_cases hmem : k ∈ users.map LiveLocation.user_id
  · rw [if_pos ((any_user_id_iff users k).2 hmem)]
    rw [findMarker_place_isSome]
    simp [hmem]
  · rw [if_neg (fun h => hmem ((any_user_id_iff users k).1 h))]
    simp [hmem]

/-- C5: A reconciliation run taking the tracked set from `{A, B}` to
`{A, C}` (all distinct) updates `A`'s marker in place — the very same marker
object (`objId` preserved), position moved — removes and discards `B`'s
marker, and creates exactly one brand-new marker for `C` (a fresh object id,
bumping the fresh counter by one).  No marker of a participant present in
both sets is destroyed and recreated. -/
theorem reconcile_transition (A B C : String) (mA mB : Marker)
    (uA uC : LiveLocation) (nid : Nat) (vp : Option Bounds)
    (hAB : A ≠ B) (hAC : A ≠ C) (hBC : B ≠ C)
    (hA : uA.user_id = A) (hC : uC.user_id = C) :
    reconcile { markers := [(A, mA), (B, mB)], nextObjId := nid, viewport := vp }
        [uA, uC]
      = { markers := [(A, { objId := mA.objId, lng := uA.longitude, lat := uA.latitude }),
                      (C, { objId := nid, lng := uC.longitude, lat := uC.latitude })]
          nextObjId := nid + 1
          viewport := computeBounds [uA, uC] } := by
  have hBA : B ≠ A := hAB.symm
  have hCA : C ≠ A := hAC.symm
  have hCB : C ≠ B := hBC.symm
  have e1 : (A == B) = false := beq_eq_false_iff_ne.mpr hAB
  have e2 : (B == A) = false := beq_eq_false_iff_ne.mpr hBA
  have e3 : (A == C) = false := beq_eq_false_iff_ne.mpr hAC
  have e4 : (C == A) = false := beq_eq_false_iff_ne.mpr hCA
  have e5 : (B == C) = false := beq_eq_false_iff_ne.mpr hBC
  have e6 : (C == B) = false := beq_eq_false_iff_ne.mpr hCB
  simp [reconcile, placeMarkers, List.foldl, upsertMarker, findMarker, setPos,
    pruneMarkers, List.filter, hA, hC, hAB, hAC, hBC, hBA, hCA, hCB,
    e1, e2, e3, e4, e5, e6]

/-- C5 witness. -/
theorem reconcile_transition_witness :
    let mA : Marker := { objId := 0, lng := 1, lat := 2 }
    let mB : Marker := { objId := 1, lng := 3, lat := 4 }
    let uA : LiveLocation :=
      { user_id := "a", match_id := "m1", latitude := 10, longitude := 20,
        accuracy := none, heading := none, speed := none, updated_at := 5 }
    let uC : LiveLocation :=
      { user_id := "c", match_id := "m1", latitude := 11, longitude := 21,
        accuracy := none, heading := none, speed := none, updated_at := 6 }
    reconcile { markers := [("a", mA), ("b", mB)], nextObjId := 2, viewport := none }
        [uA, uC]
      = { markers := [("a", { objId := 0, lng := 20, lat := 10 }),
                      ("c", { objId := 2, lng := 21, lat := 11 })]
          nextObjId := 3
          viewport := computeBounds [uA, uC] } :=
  reconcile_transition "a" "b" "c" _ _ _ _ 2 none
    (by decide) (by decide) (by decide) rfl rfl

/-! ### Idempotence of reconciliation (no-op updates cause no churn) -/

theorem keysOf_setPos (ms : List (String × Marker)) (uid : String)
    (lng lat : Rat) : keysOf (setPos ms uid lng lat) = keysOf ms := by
  induction ms with
  | nil => rfl
  | cons p rest ih =>
    by_cases hp : p.1 = uid
    · simp only [setPos, List.map_cons, hp, if_pos, keysOf] at ih ⊢
      simp [ih]
    · simp only [setPos, List.map_cons, hp, if_neg, not_false_iff, keysOf] at ih ⊢
      simp [ih]

theorem findMarker_eq_none (ms : List (String × Marker)) (k : String) :
    findMarker ms k = none ↔ k ∉ keysOf ms := by
  induction ms with
  | nil => simp [findMarker, keysOf]
  | cons p rest ih =>
    by_cases hp : p.1 = k
    · simp [findMarker, keysOf, hp]
    · have hk : ¬ k = p.1 := fun h => hp h.symm
      simp [findMarker, keysOf, hp, hk, ih]

theorem setPos_of_not_mem (ms : List (String × Marker)) (uid : String)
    (lng lat : Rat) (h : uid ∉ keysOf ms) : setPos ms uid lng lat = ms := by
  induction ms with
  | nil => rfl
  | cons p rest ih =>
    simp only [keysOf, List.map_cons, List.mem_cons, not_or] at h
    have hp : ¬ p.1 = uid := fun hh => h.1 hh.symm
    have ht := ih (by simpa [keysOf] using h.2)
    simp only [setPos, List.map_cons, hp, if_neg, not_false_iff] at ht ⊢
    rw [ht]

theorem setPos_eq_self (ms : List (String × Marker)) (uid : String)
    (lng lat : Rat) (hnd : (keysOf ms).Nodup) (mk : Marker)
    (hm : findMarker ms uid = some mk) (hlng : mk.lng = lng)
    (hlat : mk.lat = lat) : setPos ms uid lng lat = ms := by
  induction ms with
  | nil => rfl
  | cons p rest ih =>
    simp only [keysOf, List.map_cons, List.nodup_cons] at hnd
    by_cases hp : p.1 = uid
    · have hval : p.2 = mk := by
        have := hm
        simp only [findMarker, hp, if_pos] at this
        exact Option.some_injective _ this
      have htail : setPos rest uid lng lat = rest := by
        apply setPos_of_not_mem
        rw [← hp]
        simpa [keysOf] using hnd.1
      simp only [setPos] at htail
      simp only [setPos, List.map_cons, hp, if_pos]
      rw [htail]
      have hmk : ({ objId := p.2.objId, lng := lng, lat := lat } : Marker) = p.2 := by
        rw [hval, ← hlng, ← hlat]
      rw [hmk, ← hp]
    · have hm' : findMarker rest uid = some mk := by
        simpa [findMarker, hp] using hm
      have ht := ih (by simpa [keysOf] using hnd.2) hm'
      simp only [setPos, List.map_cons, hp, if_neg, not_false_iff] at ht ⊢
      rw [ht]

theorem keysOf_append (a b : List (String × Marker)) :
    keysOf (a ++ b) = keysOf a ++ keysOf b := by
  simp [keysOf]

theorem keysOf_upsert_nodup (ms : List (String × Marker)) (nid : Nat)
    (u : LiveLocation) (hnd : (keysOf ms).Nodup) :
    (keysOf (upsertMarker ms nid u).1).Nodup := by
  unfold upsertMarker
  cases hfm : findMarker ms u.user_id with
  | some x =>
    simp only [hfm, Option.isSome_some, if_pos]
    rw [keysOf_setPos]
    exact hnd
  | none =>
    have hnot : u.user_id ∉ keysOf ms := (findMarker_eq_none ms u.user_id).1 hfm
    simp only [hfm, Option.isSome_none, Bool.false_eq_true, if_neg,
      not_false_iff]
    rw [keysOf_append]
    rw [List.nodup_append]
    refine ⟨hnd, by simp [keysOf], ?_⟩
    intro a ha hb
    simp only [keysOf, List.map_cons, List.map_nil, List.mem_singleton] at hb
    exact hnot (hb ▸ ha)

theorem keysOf_place_nodup (users : List LiveLocation)
    (ms : List (String × Marker)) (nid : Nat) (hnd : (keysOf ms).Nodup) :
    (keysOf (placeMarkers ms nid users).1).Nodup := by
  induction users generalizing ms nid with
  | nil => simpa [placeMarkers_nil]
  | cons u rest ih =>
    rw [placeMarkers_cons]
    exact ih _ _ (keysOf_upsert_nodup ms nid u hnd)

theorem keysOf_prune_nodup (ms : List (String × Marker))
    (users : List LiveLocation) (hnd : (keysOf ms).Nodup) :
    (keysOf (pruneMarkers ms users)).Nodup :=
  hnd.sublist ((List.filter_sublist ms).map Prod.fst)

theorem findMarker_upsert_self (ms : List (String × Marker)) (nid : Nat)
    (u : LiveLocation) :
    ∃ i, findMarker (upsertMarker ms nid u).1 u.user_id
      = some { objId := i, lng := u.longitude, lat := u.latitude } := by
  unfold upsertMarker
  cases hfm : findMarker ms u.user_id with
  | some x =>
    refine ⟨x.objId, ?_⟩
    simp only [hfm, Option.isSome_some, if_pos]
    rw [findMarker_setPos]
    simp [hfm]
  | none =>
    refine ⟨nid, ?_⟩
    simp only [hfm, Option.isSome_none, Bool.false_eq_true, if_neg,
      not_false_iff]
    rw [findMarker_append, hfm]
    simp [findMarker]

theorem findMarker_place_of_not_mem (users : List LiveLocation)
    (ms : List (String × Marker)) (nid : Nat) (k : String)
    (h : k ∉ users.map LiveLocation.user_id) :
    findMarker (placeMarkers ms nid users).1 k = findMarker ms k := by
  induction users generalizing ms nid with
  | nil => rfl
  | cons u rest ih =>
    simp only [List.map_cons, List.mem_cons, not_or] at h
    rw [placeMarkers_cons, ih _ _ h.2]
    exact findMarker_upsert_other ms nid u k h.1

theorem findMarker_place_value (users : List LiveLocation)
    (ms : List (String × Marker)) (nid : Nat)
    (hnd : (users.map LiveLocation.user_id).Nodup)
    (u : LiveLocation) (hu : u ∈ users) :
    ∃ i, findMarker (placeMarkers ms nid users).1 u.user_id
      = some { objId := i, lng := u.longitude, lat := u.latitude } := by
  induction users generalizing ms nid with
  | nil => cases hu
  | cons v rest ih =>
    simp only [List.map_cons, List.nodup_cons] at hnd
    rcases List.mem_cons.1 hu with rfl | hmem
    · obtain ⟨i, hi⟩ := findMarker_upsert_self ms nid u
      refine ⟨i, ?_⟩
      rw [placeMarkers_cons, findMarker_place_of_not_mem _ _ _ _ hnd.1, hi]
    · rw [placeMarkers_cons]
      exact ih _ _ hnd.2 hmem

theorem placeMarkers_eq_self (users : List LiveLocation)
    (ms : List (String × Marker)) (nid : Nat) (hnd : (keysOf ms).Nodup)
    (h : ∀ u ∈ users, ∃ i, findMarker ms u.user_id
        = some { objId := i, lng := u.longitude, lat := u.latitude }) :
    placeMarkers ms nid users = (ms, nid) := by
  induction users with
  | nil => rfl
  | cons u rest ih =>
    obtain ⟨i, hi⟩ := h u (List.mem_cons_self u rest)
    have hup : upsertMarker ms nid u = (ms, nid) := by
      unfold upsertMarker
      rw [hi]
      simp only [Option.isSome_some, if_pos]
      rw [setPos_eq_self ms u.user_id u.longitude u.latitude hnd _ hi rfl rfl]
    rw [placeMarkers_cons, hup]
    exact ih (fun v hv => h v (List.mem_cons_of_mem u hv))

theorem pruneMarkers_eq_self (ms : List (String × Marker))
    (users : List LiveLocation)
    (h : ∀ p ∈ ms, (users.any fun u => u.user_id == p.1) = true) :
    pruneMarkers ms users = ms :=
  List.filter_eq_self.2 h

theorem reconcile_idem (vs : ViewState) (users : List LiveLocation)
    (hnd : (keysOf vs.markers).Nodup)
    (hus : (users.map LiveLocation.user_id).Nodup) :
    reconcile (reconcile vs users) users = reconcile vs users := by
  have hnd1 : (keysOf (reconcile vs users).markers).Nodup :=
    keysOf_prune_nodup _ _ (keysOf_place_nodup users _ _ hnd)
  have hvals : ∀ u ∈ users, ∃ i, findMarker (reconcile vs users).markers u.user_id
      = some { objId := i, lng := u.longitude, lat := u.latitude } := by
    intro u hu
    show ∃ i, findMarker
      (pruneMarkers (placeMarkers vs.markers vs.nextObjId users).1 users) u.user_id = _
    rw [findMarker_prune]
    have hany : (users.any fun v => v.user_id == u.user_id) = true :=
      (any_user_id_iff users u.user_id).2 (List.mem_map_of_mem _ hu)
    rw [if_pos hany]
    exact findMarker_place_value users vs.markers vs.nextObjId hus u hu
  have hplace : placeMarkers (reconcile vs users).markers
      (reconcile vs users).nextObjId users
      = ((reconcile vs users).markers, (reconcile vs users).nextObjId) :=
    placeMarkers_eq_self users _ _ hnd1 hvals
  have hprune : pruneMarkers (reconcile vs users).markers users
      = (reconcile vs users).markers := by
    apply pruneMarkers_eq_self
    intro p hp
    have hp' : p ∈ List.filter
        (fun q => users.any fun u => u.user_id == q.1)
        (placeMarkers vs.markers vs.nextObjId users).1 := hp
    exact (List.mem_filter.1 hp').2
  have hmark : (reconcile (reconcile vs users) users).markers
      = (reconcile vs users).markers := by
    show pruneMarkers (placeMarkers (reconcile vs users).markers
      (reconcile vs users).nextObjId users).1 users = _
    rw [hplace]
    exact hprune
  have hnid : (reconcile (reconcile vs users) users).nextObjId
      = (reconcile vs users).nextObjId := by
    show (placeMarkers (reconcile vs users).markers
      (reconcile vs users).nextObjId users).2 = _
    rw [hplace]
  have hview : (reconcile (reconcile vs users) users).viewport
      = (reconcile vs users).viewport := by
    by_cases he : users.isEmpty <;> simp [reconcile, he]
  exact ViewState.ext hmark hnid hview

/-- C7: When the tracked participant set becomes empty, the reconciliation
run performs no viewport adjustment: the previously computed viewport is
left exactly as it was (and `reconcile` is total, so no failure arises from
bounds over zero points). -/
theorem reconcile_empty_keeps_viewport (vs : ViewState) :
    (reconcile vs []).viewport = vs.viewport := by
  simp [reconcile]

/-- C9: Every change notification for the session triggers exactly one full
refetch (the callback body is one `fetchLocations()` call) that replaces the
local list wholesale with the fetched rows; and a notification carrying no
actual row change causes no marker churn: re-running reconciliation on an
already-reconciled view with the unchanged tracked set returns the identical
marker map — same marker objects, no creations (fresh counter unchanged), no
removals. -/
theorem notification_single_refetch_idempotent (st : HookState) (m : String)
    (store : List LiveLocation) (vs : ViewState) (users : List LiveLocation)
    (hnd : (keysOf vs.markers).Nodup)
    (hus : (users.map LiveLocation.user_id).Nodup) :
    (onNotification st m store false).2 = 1 ∧
    (onNotification st m store false).1.trackedUsers = selectByMatch store m ∧
    reconcile (reconcile vs users) users = reconcile vs users :=
  ⟨rfl, rfl, reconcile_idem vs users hnd hus⟩

/-- C9 witness. -/
theorem notification_single_refetch_idempotent_witness :
    let row1 : LiveLocation :=
      { user_id := "u1", match_id := "m1", latitude := 10, longitude := 20,
        accuracy := none, heading := none, speed := none, updated_at := 1 }
    let row2 : LiveLocation :=
      { user_id := "u2", match_id := "m1", latitude := 11, longitude := 21,
        accuracy := none, heading := none, speed := none, updated_at := 2 }
    let st : HookState :=
      { matchId := some "m1", isTracking := false, currentLocation := none,
        trackedUsers := [row1, row2], watchId := none, toasts := [] }
    let vs : ViewState :=
      { markers := [("u1", { objId := 0, lng := 20, lat := 10 })],
        nextObjId := 1, viewport := none }
    (onNotification st "m1" [row1, row2] false).2 = 1 ∧
    (onNotification st "m1" [row1, row2] false).1.trackedUsers
      = selectByMatch [row1, row2] "m1" ∧
    reconcile (reconcile vs [row1, row2]) [row1, row2]
      = reconcile vs [row1, row2] :=
  notification_single_refetch_idempotent _ "m1" _ _ _
    (by decide) (by decide)

/-- The concrete hook state at which C8's failure is exhibited: a session is
present and the initial fetch is about to run. -/
def readErrorState : HookState :=
  { matchId := some "m1", isTracking := false, currentLocation := none,
    trackedUsers := [], watchId := none, toasts := [] }

/-- C8 counterexample: the claim asserts that a store read error on the
*initial* session fetch is reported to the user.  It is not: `fetchLocations`
(the one closure serving both the initial fetch and notification refetches)
does nothing on error — at this concrete input the resulting hook state, and
in particular its toast list (the only user-visible notification channel), is
exactly the prior state, so no report is ever issued. -/
theorem fetchLocations_initial_error_not_reported :
    fetchLocations readErrorState none = readErrorState ∧
    (fetchLocations readErrorState none).toasts = [] :=
  ⟨rfl, rfl⟩

/-- C8 (amended): Store read errors are surfaced to the user on neither the
initial session fetch nor the refetches triggered by change notifications —
`fetchLocations` issues no toast on error — and in both cases a failed fetch
leaves the local tracked participant list (indeed the whole hook state)
unchanged. -/
theorem fetchLocations_error_silent_everywhere (st : HookState) :
    fetchLocations st none = st := rfl

/-- C1 witness. -/
theorem updateLocation_upsert_unique_witness :
    storeInv [] ∧
    storeInv (runLocationEvents (some "m1") (some "u1")
      [({ latitude := 10, longitude := 20, accuracy := some 5,
          heading := none, speed := none }, 1),
       ({ latitude := 11, longitude := 21, accuracy := none,
          heading := some 90, speed := some 2 }, 2)] []) := by
  have h0 : storeInv ([] : List LiveLocation) := by
    intro u m
    simp [keyCount]
  exact ⟨h0, updateLocation_upsert_unique "m1" "u1" _ _ h0⟩

end FoodShare
